import Mathlib

/-!
# Sounet backend — verification of the memory/rate-limiting core

Shallow embedding of the Sounet backend (Python, FastAPI) core:

* `RateLimiterMiddleware` (`app/utils/rate_limiter.py`) — per-identity token
  bucket.  Python floats for tokens and `time.time()` timestamps are modelled
  as rationals `ℚ`: every concrete value appearing in the development is
  exactly representable as a binary float, and the claims under study are
  algebraic, not about rounding.
* `MemoryService` (`app/services/memory/memory_service.py`) — session log,
  user preferences, canon memory, and the context weave.
* `InputValidator` (`app/utils/validation.py`) and
  `MemoryService.generate_session_id`.

Fallible Python operations (file I/O, JSON parsing, Redis calls) are embedded
as `Except Unit`-valued environment data: an `Except.error ()` at a read site
models the corresponding Python call raising.  A `try/except` in the source
becomes a `match` that maps `error` to the handler's fallback value; a call
*outside* any `try` propagates the `error`.
-/

namespace Sounet

/-! ## Python values

`Dict[str, Any]` payloads (canon updates, message metadata, custom settings)
are JSON-like values; `PyVal.pytime` stands for a `datetime`. -/

inductive PyVal where
  | pynone
  | pybool (b : Bool)
  | pyint (n : Int)
  | pystr (s : String)
  | pytime (t : ℚ)
  | pydict (entries : List (String × PyVal))

/-- Finite string-keyed map update (`m[k] = v` on a Python dict). -/
def updMap {α : Type} (m : String → Option α) (k : String) (v : α) :
    String → Option α :=
  fun s => if s = k then some v else m s

/-- Pointwise function update at a string key. -/
def updFun {α : Type} (m : String → α) (k : String) (v : α) : String → α :=
  fun s => if s = k then v else m s

/-- Finite string-keyed map deletion (`del m[k]` / `os.remove`). -/
def delMap {α : Type} (m : String → Option α) (k : String) :
    String → Option α :=
  fun s => if s = k then none else m s

/-! ## Rate limiter (`app/utils/rate_limiter.py`)

`RateLimiterMiddleware` keeps `self._buckets : Dict[str, Tuple[float, float]]`
mapping an IP to `(tokens, last_refill_time)`.  The dict is a `defaultdict`
whose factory returns `(float(RATE_LIMIT_REQUESTS), time.time())`; the factory
runs at first access, so a fresh bucket carries the access time. -/

structure Bucket where
  tokens : ℚ
  last_refill : ℚ
deriving DecidableEq

structure RateLimiterState where
  buckets : String → Option Bucket
  max_tokens : ℚ
  refill_rate : ℚ

/-- `self._buckets[client_ip]`: defaultdict access, lazily creating
`(max_tokens, now)`. -/
def getBucket (st : RateLimiterState) (ip : String) (now : ℚ) : Bucket :=
  match st.buckets ip with
  | some b => b
  | none => ⟨st.max_tokens, now⟩

structure CheckResult where
  state : RateLimiterState
  allowed : Bool
  remaining : ℚ

/-- `RateLimiterMiddleware._check_rate_limit(client_ip)` at time `now`.

Refills `tokens = min(max_tokens, tokens + elapsed * refill_rate)`; if the
refilled value is `>= 1.0` it consumes one token and stores
`(tokens, current_time)`, otherwise it stores `(tokens, last_refill)` — note
the *refilled* token count is written back even on denial, while
`last_refill` is left at its old value. -/
def check_rate_limit (st : RateLimiterState) (ip : String) (now : ℚ) :
    CheckResult :=
  let b := getBucket st ip now
  let time_elapsed := now - b.last_refill
  let tokens := min st.max_tokens (b.tokens + time_elapsed * st.refill_rate)
  if 1 ≤ tokens then
    { state := { st with buckets := updMap st.buckets ip ⟨tokens - 1, now⟩ }
      allowed := true
      remaining := tokens - 1 }
  else
    { state := { st with buckets := updMap st.buckets ip ⟨tokens, b.last_refill⟩ }
      allowed := false
      remaining := tokens }

/-- A sequence of `_check_rate_limit` calls for one identity at the given
times, returning the final state and the `(allowed, remaining)` results. -/
def runCalls (st : RateLimiterState) (ip : String) :
    List ℚ → RateLimiterState × List (Bool × ℚ)
  | [] => (st, [])
  | t :: ts =>
    let r := check_rate_limit st ip t
    let rest := runCalls r.state ip ts
    (rest.1, (r.allowed, r.remaining) :: rest.2)

/-- The outcome the permitted branch of `_check_rate_limit` produces when
the refilled token count is `refilled`: one token is consumed and
`last_refill` becomes `now`. -/
def allowedResult (st : RateLimiterState) (ip : String) (now refilled : ℚ) :
    CheckResult :=
  ⟨{ st with buckets := updMap st.buckets ip ⟨refilled - 1, now⟩ },
    true, refilled - 1⟩

/-- The outcome the denied branch of `_check_rate_limit` produces: the
*refilled* count `refilled` is stored while `last_refill` keeps its old
value `r0`. -/
def deniedResult (st : RateLimiterState) (ip : String) (r0 refilled : ℚ) :
    CheckResult :=
  ⟨{ st with buckets := updMap st.buckets ip ⟨refilled, r0⟩ },
    false, refilled⟩

/-! ## Data model (`app/models/schemas.py`) -/

inductive AuthorizationTier where
  | basic
  | advisory
  | admin_ready
deriving DecidableEq

inductive MessageRole where
  | user
  | assistant
  | system
deriving DecidableEq

/-- `Message` (pydantic).  `timestamp` is a `datetime` modelled as `ℚ`. -/
structure Message where
  role : MessageRole
  content : String
  timestamp : ℚ
  metadata : Option (List (String × PyVal))

/-- `UserPreferences` (pydantic).  `user_id: str` has no length or content
constraint, so the empty string is an admissible `user_id`. -/
structure UserPreferences where
  user_id : String
  tone_preference : Option String
  max_response_length : Option Int
  enable_clarification_questions : Bool
  custom_settings : Option (List (String × PyVal))
  updated_at : ℚ

/-- `CanonMemory` (pydantic).  `update_canon_memory` assigns update values to
fields with `setattr` and pydantic does not validate assignments here, so the
fields are embedded at the JSON-value level (`PyVal`). -/
structure CanonMemory where
  system_knowledge : PyVal
  model_info : PyVal
  locked : PyVal
  version : PyVal
  last_updated : PyVal

structure MemoryContext where
  session_memory : List Message
  user_preferences : Option UserPreferences
  canon_memory : Option CanonMemory
  authorization_tier : AuthorizationTier

/-! ## Memory service state (`app/services/memory/memory_service.py`)

`MemoryService` holds an in-process session cache `self._sessions` and a
`storage_type` chosen at construction (`"file"`, `"redis"`, or any other
string, for which the storage branches fall through).  The durable backends
are part of the world state:

* `sessionFiles sid`: the session file `{SESSION_MEMORY_PATH}/{sid}.json` —
  `none` when the file does not exist, `some (Except.error ())` when
  opening/parsing it raises (caught by `_load_session_file`), and
  `some (Except.ok recs)` for a readable file.  `_save_session_file` writes
  only `{role, content, timestamp}` per message (`metadata` is not
  serialized), which `SessionFileRecord` mirrors.
* `prefFiles uid`: likewise for `{USER_PREFERENCES_PATH}/{uid}.json`.
* `canonFile`: result of reading `CANON_MEMORY_PATH`; `get_canon_memory`
  wraps the whole read in `try/except`, so an error degrades to `none`.
* `redisSessions k` / `redisPrefs k`: the outcome of `redis_client.get` for
  the session/preferences key — `Except.error ()` when the Redis call itself
  raises (it sits *outside* the `try` block in `_load_session_redis` and
  `_load_preferences_redis`), `Except.ok none` for absent data, and
  `Except.ok (some v)` with `v` the JSON-parse outcome (parsing *is* inside
  the `try`).

Successful writes are modelled as map updates (write failures are not
injected; none of the properties below concerns a failing write). -/

inductive StorageType where
  | file
  | redis
  | other
deriving DecidableEq

/-- One serialized message as written by `_save_session_file` /
`_save_session_redis`: `{"role": ..., "content": ..., "timestamp": ...}`. -/
structure SessionFileRecord where
  role : MessageRole
  content : String
  timestamp : ℚ

def serializeMessage (m : Message) : SessionFileRecord :=
  ⟨m.role, m.content, m.timestamp⟩

/-- `Message(role=..., content=..., timestamp=...)` as rebuilt by the
loaders; `metadata` is absent in the serialized form. -/
def deserializeMessage (r : SessionFileRecord) : Message :=
  ⟨r.role, r.content, r.timestamp, none⟩

structure MemoryWorld where
  storage_type : StorageType
  sessions : String → Option (List Message)
  sessionFiles : String → Option (Except Unit (List SessionFileRecord))
  prefFiles : String → Option (Except Unit UserPreferences)
  canonFile : Except Unit CanonMemory
  redisSessions : String → Except Unit (Option (Except Unit (List SessionFileRecord)))
  redisPrefs : String → Except Unit (Option (Except Unit UserPreferences))

/-! ### Session memory -/

/-- `MemoryService._load_session_file`: a missing file returns `[]`; an
open/parse failure is caught and returns `[]`; a readable file is parsed,
cached in `self._sessions`, and returned. -/
def load_session_file (w : MemoryWorld) (sid : String) :
    MemoryWorld × List Message :=
  match w.sessionFiles sid with
  | none => (w, [])
  | some (Except.error _) => (w, [])
  | some (Except.ok recs) =>
    let msgs := recs.map deserializeMessage
    ({ w with sessions := updMap w.sessions sid msgs }, msgs)

/-- `MemoryService._load_session_redis`: the `redis_client.get` call sits
outside the `try` block, so a Redis failure propagates (`Except.error`);
absent data returns `[]`; a JSON-parse failure is caught and returns `[]`. -/
def load_session_redis (w : MemoryWorld) (sid : String) :
    Except Unit (MemoryWorld × List Message) :=
  match w.redisSessions sid with
  | Except.error e => Except.error e
  | Except.ok none => Except.ok (w, [])
  | Except.ok (some (Except.error _)) => Except.ok (w, [])
  | Except.ok (some (Except.ok recs)) =>
    let msgs := recs.map deserializeMessage
    Except.ok ({ w with sessions := updMap w.sessions sid msgs }, msgs)

/-- `MemoryService.get_session_history`: cache first, then the storage
backend; an unrecognized storage type returns `[]`. -/
def get_session_history (w : MemoryWorld) (sid : String) :
    Except Unit (MemoryWorld × List Message) :=
  match w.sessions sid with
  | some msgs => Except.ok (w, msgs)
  | none =>
    match w.storage_type with
    | StorageType.file => Except.ok (load_session_file w sid)
    | StorageType.redis => load_session_redis w sid
    | StorageType.other => Except.ok (w, [])

/-- `MemoryService.add_message_to_session` at time `now`
(`datetime.utcnow()`): builds the `Message`, appends it to the cached list
(creating the list on first use), then persists the whole cached list. -/
def add_message_to_session (w : MemoryWorld) (sid : String)
    (role : MessageRole) (content : String) (now : ℚ) : MemoryWorld :=
  let message : Message := ⟨role, content, now, none⟩
  let msgs := (w.sessions sid).getD [] ++ [message]
  let w1 := { w with sessions := updMap w.sessions sid msgs }
  match w1.storage_type with
  | StorageType.file =>
    { w1 with sessionFiles :=
        updMap w1.sessionFiles sid (Except.ok (msgs.map serializeMessage)) }
  | StorageType.redis =>
    let v := Except.ok (some (Except.ok (msgs.map serializeMessage)))
    { w1 with redisSessions := updFun w1.redisSessions sid v }
  | StorageType.other => w1

/-- `MemoryService.clear_session`: drops the cache entry, then removes the
durable representation (file `os.remove` / Redis `delete`). -/
def clear_session (w : MemoryWorld) (sid : String) : MemoryWorld :=
  let w1 := { w with sessions := delMap w.sessions sid }
  match w1.storage_type with
  | StorageType.file =>
    { w1 with sessionFiles := delMap w1.sessionFiles sid }
  | StorageType.redis =>
    { w1 with redisSessions := updFun w1.redisSessions sid (Except.ok none) }
  | StorageType.other => w1

/-- A fresh process over the same durable stores: the in-memory session
cache starts empty, everything durable carries over. -/
def freshProcess (w : MemoryWorld) : MemoryWorld :=
  { w with sessions := fun _ => none }

/-! ### User preferences -/

/-- `MemoryService.get_user_preferences`: file mode is fully guarded
(missing file → `None`, parse failure caught → `None`); Redis mode performs
`redis_client.get` *outside* the `try`, so a Redis failure propagates. -/
def get_user_preferences (w : MemoryWorld) (uid : String) :
    Except Unit (Option UserPreferences) :=
  match w.storage_type with
  | StorageType.file =>
    match w.prefFiles uid with
    | none => Except.ok none
    | some (Except.error _) => Except.ok none
    | some (Except.ok p) => Except.ok (some p)
  | StorageType.redis =>
    match w.redisPrefs uid with
    | Except.error e => Except.error e
    | Except.ok none => Except.ok none
    | Except.ok (some (Except.error _)) => Except.ok none
    | Except.ok (some (Except.ok p)) => Except.ok (some p)
  | StorageType.other => Except.ok none

/-- `MemoryService.save_user_preferences` at time `now`: stamps
`preferences.updated_at = datetime.utcnow()` and writes the whole record
keyed by `preferences.user_id`.  No validation of `user_id` happens here or
anywhere on this path: the write proceeds for any string, including `""`
(whose file is then `{USER_PREFERENCES_PATH}/.json`). -/
def save_user_preferences (w : MemoryWorld) (p : UserPreferences) (now : ℚ) :
    MemoryWorld :=
  let p1 := { p with updated_at := now }
  match w.storage_type with
  | StorageType.file =>
    { w with prefFiles := updMap w.prefFiles p1.user_id (Except.ok p1) }
  | StorageType.redis =>
    let v := Except.ok (some (Except.ok p1))
    { w with redisPrefs := updFun w.redisPrefs p1.user_id v }
  | StorageType.other => w

/-- `PUT /preferences` (`app/api/memory.py`, `update_user_preferences`): the
request body is parsed into `UserPreferences` (pydantic accepts any string
`user_id`), handed to `save_user_preferences`, and echoed back.  The echoed
record carries the fresh `updated_at` because the service mutates the same
object before the endpoint returns it. -/
def api_update_user_preferences (w : MemoryWorld) (p : UserPreferences)
    (now : ℚ) : MemoryWorld × UserPreferences :=
  (save_user_preferences w p now, { p with updated_at := now })

/-! ### Canon memory

The canon store is the readable content of `CANON_MEMORY_PATH`: `none` when
`get_canon_memory` would fail (missing/corrupt file), `some c` otherwise. -/

/-- `MemoryService.get_canon_memory`: the whole read is inside `try/except`,
so any failure degrades to `None`. -/
def get_canon_memory (w : MemoryWorld) : Option CanonMemory :=
  w.canonFile.toOption

/-- The pydantic model fields of `CanonMemory`: `setattr(canon, k, v)`
assigns the value for exactly these names. -/
def canonFieldName (k : String) : Bool :=
  k == "system_knowledge" || k == "model_info" || k == "locked" ||
    k == "version" || k == "last_updated"

/-- Attribute names of the pydantic `BaseModel` class itself (methods,
properties, class attributes — v2 API plus the deprecated v1-style names):
`hasattr(canon, k)` is `True` for these although they are not model fields,
and `setattr(canon, k, v)` raises (`ValueError` "object has no field" for
methods, `AttributeError` for settable-less properties and class vars). -/
def pydanticAttrName (k : String) : Bool :=
  k == "model_dump" || k == "model_dump_json" || k == "model_copy" ||
    k == "model_validate" || k == "model_validate_json" ||
    k == "model_validate_strings" || k == "model_construct" ||
    k == "model_json_schema" || k == "model_fields" ||
    k == "model_computed_fields" || k == "model_extra" ||
    k == "model_fields_set" || k == "model_rebuild" ||
    k == "model_config" || k == "model_parametrized_name" ||
    k == "model_post_init" || k == "dict" || k == "json" || k == "copy" ||
    k == "construct" || k == "schema" || k == "schema_json" ||
    k == "validate" || k == "parse_obj" || k == "parse_raw" ||
    k == "parse_file" || k == "from_orm" || k == "update_forward_refs"

/-- `hasattr(canon, k)`: true for the model fields and for the pydantic
`BaseModel` attributes.  (Names starting with an underscore, for which
pydantic's `__setattr__` silently stores a plain instance attribute that
`model_dump()` never serializes, leave the stored record unchanged exactly
like names failing `hasattr`; the embedding folds them into that class.) -/
def hasCanonAttr (k : String) : Bool :=
  canonFieldName k || pydanticAttrName k

/-- `setattr(canon, k, v)` for a model field `k` (identity otherwise). -/
def setCanonAttr (c : CanonMemory) (k : String) (v : PyVal) : CanonMemory :=
  if k = "system_knowledge" then { c with system_knowledge := v }
  else if k = "model_info" then { c with model_info := v }
  else if k = "locked" then { c with locked := v }
  else if k = "version" then { c with version := v }
  else if k = "last_updated" then { c with last_updated := v }
  else c

/-- The `for key, value in updates.items(): if hasattr(canon, key):
setattr(canon, key, value)` loop, in dict iteration (= insertion) order.
A key passing `hasattr` that is a model field is assigned; one that is a
pydantic `BaseModel` attribute makes `setattr` raise, aborting the loop
(`Except.error`); a key failing `hasattr` is skipped. -/
def applyCanonUpdates (updates : List (String × PyVal)) (c : CanonMemory) :
    Except Unit CanonMemory :=
  match updates with
  | [] => Except.ok c
  | (k, v) :: rest =>
    if hasCanonAttr k then
      if canonFieldName k then applyCanonUpdates rest (setCanonAttr c k v)
      else Except.error ()
    else applyCanonUpdates rest c

/-- `MemoryService.update_canon_memory` at time `now`.  `store` is the canon
file's readable content, `updates` the dict in iteration (= insertion)
order.

* tier below `ADMIN_READY` → `False`, nothing read or written;
* canon read yields `None` → `False`, nothing written;
* the update loop raising (a pydantic-attribute key) → the exception is
  caught by the surrounding `try/except`, `False`, nothing written;
* otherwise `last_updated` is stamped with `datetime.utcnow()`, the whole
  record is written back, and the call returns `True`. -/
def update_canon_memory (store : Option CanonMemory)
    (updates : List (String × PyVal)) (tier : AuthorizationTier) (now : ℚ) :
    Option CanonMemory × Bool :=
  if tier ≠ AuthorizationTier.admin_ready then
    (store, false)
  else
    match store with
    | none => (none, false)
    | some canon =>
      match applyCanonUpdates updates canon with
      | Except.error _ => (some canon, false)
      | Except.ok canon1 =>
        let canon2 := { canon1 with last_updated := PyVal.pytime now }
        (some canon2, true)

/-! ### Context weave -/

/-- `MemoryService.build_memory_context`: session history, then preferences
(only for a truthy `user_id`, so `None` and `""` both skip the fetch), then
canon, then the `MemoryContext` stamped with the supplied tier.  The result
also carries the (possibly cache-updated) service state. -/
def build_memory_context (w : MemoryWorld) (sid : String)
    (uid : Option String) (tier : AuthorizationTier) :
    Except Unit (MemoryWorld × MemoryContext) :=
  match get_session_history w sid with
  | Except.error e => Except.error e
  | Except.ok (w1, session_memory) =>
    let prefFetch : Except Unit (Option UserPreferences) :=
      match uid with
      | none => Except.ok none
      | some u => if u = "" then Except.ok none else get_user_preferences w1 u
    match prefFetch with
    | Except.error e => Except.error e
    | Except.ok user_preferences =>
      Except.ok (w1,
        { session_memory := session_memory
          user_preferences := user_preferences
          canon_memory := get_canon_memory w1
          authorization_tier := tier })

/-! ### Session id generation and validation

`generate_session_id` returns `f"session_{uuid.uuid4().hex[:16]}"`.
`uuid.uuid4().hex` is always a 32-character lowercase-hexadecimal string;
the function below takes that string (as a character list) as input.
`InputValidator` (`app/utils/validation.py`) is embedded over character
lists as well. -/

def generate_session_id (uuidHex : List Char) : List Char :=
  "session_".data ++ uuidHex.take 16

def isLowerHexDigit (c : Char) : Bool :=
  (decide ('0' ≤ c) && decide (c ≤ '9')) ||
    (decide ('a' ≤ c) && decide (c ≤ 'f'))

/-- One character of the class `[a-zA-Z0-9_-]` from
`InputValidator.SESSION_ID_PATTERN`. -/
def sessionIdChar (c : Char) : Bool :=
  c.isAlpha || c.isDigit || c = '_' || c = '-'

/-- One character of the class `[a-zA-Z0-9_@.-]` from
`InputValidator.USER_ID_PATTERN`. -/
def userIdChar (c : Char) : Bool :=
  c.isAlpha || c.isDigit || c = '_' || c = '@' || c = '.' || c = '-'

/-- `InputValidator.validate_session_id`: empty → invalid; longer than
`MAX_SESSION_ID_LENGTH = 64` → invalid; any character outside
`[a-zA-Z0-9_-]` → invalid; otherwise valid. -/
def validate_session_id (sid : List Char) : Bool × Option String :=
  if sid.isEmpty then
    (false, some "Session ID cannot be empty")
  else if 64 < sid.length then
    (false, some "Session ID exceeds maximum length of 64")
  else if !sid.all sessionIdChar then
    (false, some "Session ID contains invalid characters")
  else
    (true, none)

/-- `InputValidator.validate_user_id`: empty → invalid; longer than
`MAX_USER_ID_LENGTH = 128` → invalid; any character outside
`[a-zA-Z0-9_@.-]` → invalid; otherwise valid.  (This validator is defined in
the repository but is not invoked on the preferences save path.) -/
def validate_user_id (uid : List Char) : Bool × Option String :=
  if uid.isEmpty then
    (false, some "User ID cannot be empty")
  else if 128 < uid.length then
    (false, some "User ID exceeds maximum length of 128")
  else if !uid.all userIdChar then
    (false, some "User ID contains invalid characters")
  else
    (true, none)

/-! ## Sequencing helpers and concrete states -/

/-- `(role, content, timestamp)` as passed to `add_message_to_session`. -/
def mkMessage (it : MessageRole × String × ℚ) : Message :=
  ⟨it.1, it.2.1, it.2.2, none⟩

/-- A sequence of `add_message_to_session` calls on one session. -/
def appendSeq (w : MemoryWorld) (sid : String)
    (items : List (MessageRole × String × ℚ)) : MemoryWorld :=
  items.foldl (fun w it => add_message_to_session w sid it.1 it.2.1 it.2.2) w

def ipA : String := "10.0.0.1"

def ipB : String := "10.0.0.2"

/-- A limiter state (capacity 60, refill 1 token/s, i.e. the default
`RATE_LIMIT_REQUESTS = 60` per `RATE_LIMIT_PERIOD = 60` s) in which `ipA`
exhausted its bucket at time 0 while `ipB` still holds 7 tokens. -/
def rlExhausted : RateLimiterState :=
  { buckets := fun s => if s = ipA then some ⟨0, 0⟩
      else if s = ipB then some ⟨7, 0⟩ else none
    max_tokens := 60
    refill_rate := 1 }

/-- A file-backed memory world with no sessions, preferences, or canon. -/
def wFile : MemoryWorld :=
  { storage_type := StorageType.file
    sessions := fun _ => none
    sessionFiles := fun _ => none
    prefFiles := fun _ => none
    canonFile := Except.error ()
    redisSessions := fun _ => Except.ok none
    redisPrefs := fun _ => Except.ok none }

/-- A Redis-backed memory world whose Redis connection fails at call time:
every `redis_client.get` raises. -/
def wRedisDown : MemoryWorld :=
  { storage_type := StorageType.redis
    sessions := fun _ => none
    sessionFiles := fun _ => none
    prefFiles := fun _ => none
    canonFile := Except.error ()
    redisSessions := fun _ => Except.error ()
    redisPrefs := fun _ => Except.error () }

/-- An initialized canon record. -/
def canon0 : CanonMemory :=
  { system_knowledge := PyVal.pydict []
    model_info := PyVal.pydict [("model_name", PyVal.pystr "SLM-A1")]
    locked := PyVal.pybool true
    version := PyVal.pystr "1.0.0"
    last_updated := PyVal.pynone }

/-- A preferences record whose `user_id` is the empty string — accepted by
the pydantic model, since `user_id : str` carries no constraint. -/
def prefEmptyUid : UserPreferences :=
  { user_id := ""
    tone_preference := some "balanced"
    max_response_length := some 500
    enable_clarification_questions := true
    custom_settings := none
    updated_at := 0 }

/-- A possible value of `uuid.uuid4().hex`: 32 lowercase hex characters. -/
def hex32 : List Char :=
  "00112233445566778899aabbccddeeff".data

/-! ## Canon memory theorems -/

/-- C3: any tier other than ADMIN makes `update_canon_memory` return `false`
and leaves the stored canon record unchanged — nothing is read or written. -/
theorem canon_update_unauthorized (store : Option CanonMemory)
    (updates : List (String × PyVal)) (tier : AuthorizationTier) (now : ℚ)
    (h : tier ≠ AuthorizationTier.admin_ready) :
    update_canon_memory store updates tier now = (store, false) := by
  simp [update_canon_memory, h]

/-- Witness for C3 at the BASIC tier. -/
theorem canon_update_unauthorized_witness :
    AuthorizationTier.basic ≠ AuthorizationTier.admin_ready ∧
      update_canon_memory (some canon0) [("locked", PyVal.pybool false)]
        AuthorizationTier.basic 5 = (some canon0, false) :=
  ⟨by decide, canon_update_unauthorized (some canon0)
    [("locked", PyVal.pybool false)] AuthorizationTier.basic 5 (by decide)⟩

/-- C9: when the canon read yields absence, an ADMIN update returns `false`
and creates no canon record. -/
theorem canon_update_uninitialized (updates : List (String × PyVal))
    (now : ℚ) :
    update_canon_memory none updates AuthorizationTier.admin_ready now =
      (none, false) := rfl

/-! ## Session memory theorems -/

lemma add_message_sessions_self (w : MemoryWorld) (sid : String)
    (r : MessageRole) (c : String) (t : ℚ) :
    (add_message_to_session w sid r c t).sessions sid =
      some ((w.sessions sid).getD [] ++ [⟨r, c, t, none⟩]) := by
  cases hst : w.storage_type <;>
    simp [add_message_to_session, hst, updMap]

lemma appendSeq_sessions (sid : String)
    (items : List (MessageRole × String × ℚ)) :
    ∀ (w : MemoryWorld) (pre : List Message), w.sessions sid = some pre →
      (appendSeq w sid items).sessions sid =
        some (pre ++ items.map mkMessage) := by
  induction items with
  | nil => intro w pre h; simpa [appendSeq] using h
  | cons it rest ih =>
    intro w pre h
    have h1 := add_message_sessions_self w sid it.1 it.2.1 it.2.2
    rw [h] at h1
    have h2 := ih (add_message_to_session w sid it.1 it.2.1 it.2.2)
      (pre ++ [⟨it.1, it.2.1, it.2.2, none⟩]) (by simpa using h1)
    have e : appendSeq w sid (it :: rest) =
        appendSeq (add_message_to_session w sid it.1 it.2.1 it.2.2) sid
          rest := rfl
    rw [e, h2]
    simp [mkMessage]

/-- C5: starting from a session unknown to the cache and to both durable
backends, a sequence of `add_message_to_session` calls followed by
`get_session_history` returns exactly the appended messages in insertion
order; and on the unknown session itself, `get_session_history` returns the
empty sequence. -/
theorem session_append_then_get (w : MemoryWorld) (sid : String)
    (items : List (MessageRole × String × ℚ))
    (hc : w.sessions sid = none)
    (hf : w.sessionFiles sid = none)
    (hr : w.redisSessions sid = Except.ok none) :
    get_session_history (appendSeq w sid items) sid =
      Except.ok (appendSeq w sid items, items.map mkMessage) ∧
    get_session_history w sid = Except.ok (w, []) := by
  have hempty : get_session_history w sid = Except.ok (w, []) := by
    cases hst : w.storage_type <;>
      simp [get_session_history, hst, hc, load_session_file, hf,
        load_session_redis, hr]
  refine ⟨?_, hempty⟩
  cases items with
  | nil => simpa [appendSeq] using hempty
  | cons it rest =>
    have h1 := add_message_sessions_self w sid it.1 it.2.1 it.2.2
    rw [hc] at h1
    have h2 := appendSeq_sessions sid rest
      (add_message_to_session w sid it.1 it.2.1 it.2.2)
      [⟨it.1, it.2.1, it.2.2, none⟩] (by simpa using h1)
    have e : appendSeq w sid (it :: rest) =
        appendSeq (add_message_to_session w sid it.1 it.2.1 it.2.2) sid
          rest := rfl
    rw [e]
    simp [get_session_history, h2, mkMessage]

/-- Witness for C5: two messages appended to a fresh session. -/
theorem session_append_then_get_witness :
    wFile.sessions "s1" = none ∧ wFile.sessionFiles "s1" = none ∧
    wFile.redisSessions "s1" = Except.ok none ∧
    (get_session_history
        (appendSeq wFile "s1"
          [(MessageRole.user, "hi", 0), (MessageRole.assistant, "hello", 1)])
        "s1" =
      Except.ok (appendSeq wFile "s1"
          [(MessageRole.user, "hi", 0), (MessageRole.assistant, "hello", 1)],
        [(MessageRole.user, "hi", 0),
          (MessageRole.assistant, "hello", 1)].map mkMessage) ∧
      get_session_history wFile "s1" = Except.ok (wFile, [])) :=
  ⟨rfl, rfl, rfl, session_append_then_get wFile "s1"
    [(MessageRole.user, "hi", 0), (MessageRole.assistant, "hello", 1)]
    rfl rfl rfl⟩

/-- C7: `clear_session` followed by `get_session_history` returns the empty
sequence, both in the same process and after a restart (`freshProcess`) that
rereads durable storage. -/
theorem session_clear_then_get (w : MemoryWorld) (sid : String) :
    get_session_history (clear_session w sid) sid =
      Except.ok (clear_session w sid, []) ∧
    get_session_history (freshProcess (clear_session w sid)) sid =
      Except.ok (freshProcess (clear_session w sid), []) := by
  constructor <;>
    cases hst : w.storage_type <;>
      simp [clear_session, get_session_history, freshProcess,
        load_session_file, load_session_redis, delMap, updFun, hst]

/-! ## Context weave theorems -/

lemma load_session_file_storage (w : MemoryWorld) (sid : String) :
    (load_session_file w sid).1.storage_type = w.storage_type := by
  rcases h : w.sessionFiles sid with _ | e
  · simp [load_session_file, h]
  · cases e <;> simp [load_session_file, h]

lemma get_session_history_file (w : MemoryWorld) (sid : String)
    (h : w.storage_type = StorageType.file) :
    ∃ q, get_session_history w sid = Except.ok q ∧
      q.1.storage_type = StorageType.file := by
  cases hc : w.sessions sid with
  | some msgs =>
    exact ⟨(w, msgs), by simp [get_session_history, hc], h⟩
  | none =>
    refine ⟨load_session_file w sid, ?_, ?_⟩
    · simp [get_session_history, hc, h]
    · rw [load_session_file_storage]; exact h

lemma get_user_preferences_file (w : MemoryWorld) (uid : String)
    (h : w.storage_type = StorageType.file) :
    ∃ r, get_user_preferences w uid = Except.ok r := by
  rcases hp : w.prefFiles uid with _ | (e | p)
  · exact ⟨none, by simp [get_user_preferences, h, hp]⟩
  · exact ⟨none, by simp [get_user_preferences, h, hp]⟩
  · exact ⟨some p, by simp [get_user_preferences, h, hp]⟩

/-- C4 (amended): in file storage mode, `build_memory_context` is total —
every sub-fetch failure (missing or corrupt session file, preference file,
or canon file) degrades to an empty/absent layer — and the result carries
the supplied authorization tier. -/
theorem compose_never_fails_file_mode (w : MemoryWorld) (sid : String)
    (uid : Option String) (tier : AuthorizationTier)
    (h : w.storage_type = StorageType.file) :
    ∃ p, build_memory_context w sid uid tier = Except.ok p ∧
      p.2.authorization_tier = tier := by
  obtain ⟨⟨w1, sm⟩, hq, hq1⟩ := get_session_history_file w sid h
  cases uid with
  | none =>
    refine ⟨(w1, ⟨sm, none, get_canon_memory w1, tier⟩), ?_, rfl⟩
    simp [build_memory_context, hq]
  | some u =>
    by_cases hu : u = ""
    · refine ⟨(w1, ⟨sm, none, get_canon_memory w1, tier⟩), ?_, rfl⟩
      simp [build_memory_context, hq, hu]
    · obtain ⟨r, hr⟩ := get_user_preferences_file w1 u hq1
      refine ⟨(w1, ⟨sm, r, get_canon_memory w1, tier⟩), ?_, rfl⟩
      simp [build_memory_context, hq, hu, hr]

/-- Witness for C4 (amended) on a file-backed world whose canon file is
unreadable and whose session and preference files are absent. -/
theorem compose_never_fails_file_mode_witness :
    wFile.storage_type = StorageType.file ∧
    ∃ p, build_memory_context wFile "s1" (some "u1")
        AuthorizationTier.advisory = Except.ok p ∧
      p.2.authorization_tier = AuthorizationTier.advisory :=
  ⟨rfl, compose_never_fails_file_mode wFile "s1" (some "u1")
    AuthorizationTier.advisory rfl⟩

/-- C4 counterexample: in Redis storage mode, a Redis failure during the
session fetch is *not* caught (`redis_client.get` sits outside the `try`
in `_load_session_redis`), so `build_memory_context` propagates the error
instead of degrading. -/
theorem compose_raises_on_redis_failure :
    build_memory_context wRedisDown "session_abc" none
      AuthorizationTier.basic = Except.error () := rfl

/-! ## User preferences theorems -/

/-- C8 counterexample: saving preferences whose `user_id` is the empty
string is attempted and succeeds — a record is written to storage under the
empty user id (file `.json`), with `updated_at` stamped. -/
theorem prefs_empty_uid_record_written :
    (api_update_user_preferences wFile prefEmptyUid 7).1.prefFiles "" =
      some (Except.ok { prefEmptyUid with updated_at := 7 }) := rfl

/-- C8 (amended): an empty `userId` is not rejected anywhere on the save
path — the save proceeds and writes a record keyed by the empty user id —
even though the repository's `InputValidator.validate_user_id` (which is
never invoked on this path) classifies the empty id as invalid. -/
theorem prefs_empty_uid_not_validated (w : MemoryWorld)
    (p : UserPreferences) (now : ℚ) (hu : p.user_id = "")
    (hs : w.storage_type = StorageType.file) :
    (save_user_preferences w p now).prefFiles "" =
      some (Except.ok { p with updated_at := now }) ∧
    (validate_user_id "".data).1 = false := by
  refine ⟨?_, rfl⟩
  simp [save_user_preferences, hs, updMap, hu]

/-- Witness for C8 (amended) at a concrete record with empty `user_id`. -/
theorem prefs_empty_uid_not_validated_witness :
    prefEmptyUid.user_id = "" ∧
    wFile.storage_type = StorageType.file ∧
    ((save_user_preferences wFile prefEmptyUid 7).prefFiles "" =
        some (Except.ok { prefEmptyUid with updated_at := 7 }) ∧
      (validate_user_id "".data).1 = false) :=
  ⟨rfl, rfl, prefs_empty_uid_not_validated wFile prefEmptyUid 7 rfl rfl⟩

/-! ## Rate limiter theorems -/

lemma check_rate_limit_frame (st : RateLimiterState) (ip : String) (now : ℚ)
    (B : String) (h : B ≠ ip) :
    (check_rate_limit st ip now).state.buckets B = st.buckets B := by
  simp only [check_rate_limit]
  split <;> simp [updMap, h]

/-- C6: a sequence of calls for identity `A` never touches identity `B`'s
bucket: its tokens and `last_refill` are unchanged. -/
theorem rate_limit_other_identity_frame (st : RateLimiterState)
    (A B : String) (ts : List ℚ) (h : B ≠ A) :
    ((runCalls st A ts).1).buckets B = st.buckets B := by
  induction ts generalizing st with
  | nil => rfl
  | cons t ts ih =>
    calc ((runCalls st A (t :: ts)).1).buckets B
        = ((runCalls (check_rate_limit st A t).state A ts).1).buckets B :=
          rfl
      _ = (check_rate_limit st A t).state.buckets B := ih _
      _ = st.buckets B := check_rate_limit_frame st A t B h

/-- Witness for C6: exhausting `ipA` over three calls leaves `ipB`'s
7-token bucket intact. -/
theorem rate_limit_other_identity_frame_witness :
    ipB ≠ ipA ∧
    ((runCalls rlExhausted ipA [1, 2, 3]).1).buckets ipB =
      rlExhausted.buckets ipB :=
  ⟨by decide, rate_limit_other_identity_frame rlExhausted ipA ipB [1, 2, 3]
    (by decide)⟩
lemma check_rate_limit_allowed_eq (st : RateLimiterState) (ip : String)
    (now tok0 r0 : ℚ) (hb : st.buckets ip = some ⟨tok0, r0⟩)
    (hge : 1 ≤ min st.max_tokens (tok0 + (now - r0) * st.refill_rate)) :
    check_rate_limit st ip now =
      allowedResult st ip now
        (min st.max_tokens (tok0 + (now - r0) * st.refill_rate)) := by
  simp [check_rate_limit, getBucket, hb, hge, allowedResult]

lemma check_rate_limit_denied_eq (st : RateLimiterState) (ip : String)
    (now tok0 r0 : ℚ) (hb : st.buckets ip = some ⟨tok0, r0⟩)
    (hlt : min st.max_tokens (tok0 + (now - r0) * st.refill_rate) < 1) :
    check_rate_limit st ip now =
      deniedResult st ip r0
        (min st.max_tokens (tok0 + (now - r0) * st.refill_rate)) := by
  simp [check_rate_limit, getBucket, hb, not_le.mpr hlt, deniedResult]

/-- Across a run of denied calls the bucket's `last_refill` stays put while
the stored tokens end **at least** at the exact-accrual value
`min(C, tok0 + (t_last - r0) * R)` — each denied call re-adds the full
elapsed interval, so the stored value can strictly exceed it. -/
lemma denied_run_accrual (ip : String) :
    ∀ (ts : List ℚ) (st : RateLimiterState) (tok0 r0 : ℚ),
      st.buckets ip = some ⟨tok0, r0⟩ → 0 ≤ st.refill_rate →
      (∀ t ∈ ts, r0 ≤ t) →
      (∀ p ∈ (runCalls st ip ts).2, p.1 = false) →
      ∀ hne : ts ≠ [],
        ∃ tokF, ((runCalls st ip ts).1).buckets ip = some ⟨tokF, r0⟩ ∧
          min st.max_tokens (tok0 + (ts.getLast hne - r0) * st.refill_rate)
            ≤ tokF := by
  intro ts
  induction ts with
  | nil => intro st tok0 r0 _ _ _ _ hne; exact absurd rfl hne
  | cons t ts ih =>
    intro st tok0 r0 hb hR hts hden hne
    have hfst : (runCalls st ip (t :: ts)).1 =
        (runCalls (check_rate_limit st ip t).state ip ts).1 := by
      simp [runCalls]
    have hsnd : (runCalls st ip (t :: ts)).2 =
        ((check_rate_limit st ip t).allowed,
          (check_rate_limit st ip t).remaining) ::
          (runCalls (check_rate_limit st ip t).state ip ts).2 := by
      simp [runCalls]
    have hdenied : (check_rate_limit st ip t).allowed = false := by
      have hmem : ((check_rate_limit st ip t).allowed,
          (check_rate_limit st ip t).remaining) ∈
          (runCalls st ip (t :: ts)).2 := by
        rw [hsnd]
        exact List.mem_cons_self _ _
      exact hden _ hmem
    have hlt : min st.max_tokens (tok0 + (t - r0) * st.refill_rate) < 1 := by
      by_contra hge
      push_neg at hge
      rw [check_rate_limit_allowed_eq st ip t tok0 r0 hb hge] at hdenied
      simp [allowedResult] at hdenied
    have hstep := check_rate_limit_denied_eq st ip t tok0 r0 hb hlt
    have hb1 : (check_rate_limit st ip t).state.buckets ip =
        some ⟨min st.max_tokens (tok0 + (t - r0) * st.refill_rate), r0⟩ := by
      rw [hstep]
      simp [deniedResult, updMap]
    have hmax : (check_rate_limit st ip t).state.max_tokens =
        st.max_tokens := by rw [hstep]; rfl
    have hrate : (check_rate_limit st ip t).state.refill_rate =
        st.refill_rate := by rw [hstep]; rfl
    have hd : 0 ≤ (t - r0) * st.refill_rate :=
      mul_nonneg (sub_nonneg.mpr (hts t (List.mem_cons_self t ts))) hR
    cases ts with
    | nil =>
      refine ⟨min st.max_tokens (tok0 + (t - r0) * st.refill_rate), ?_, ?_⟩
      · rw [hfst]
        simpa [runCalls] using hb1
      · simp
    | cons t' ts' =>
      have hts' : ∀ x ∈ t' :: ts', r0 ≤ x := fun x hx =>
        hts x (List.mem_cons_of_mem _ hx)
      have hden' : ∀ p ∈ (runCalls (check_rate_limit st ip t).state ip
          (t' :: ts')).2, p.1 = false := by
        intro p hp
        apply hden
        rw [hsnd]
        exact List.mem_cons_of_mem _ hp
      obtain ⟨tokF, hbF, hboundF⟩ := ih (check_rate_limit st ip t).state
        (min st.max_tokens (tok0 + (t - r0) * st.refill_rate)) r0 hb1
        (by rw [hrate]; exact hR) hts' hden' (by simp)
      refine ⟨tokF, ?_, ?_⟩
      · rw [hfst]
        exact hbF
      rw [hmax, hrate] at hboundF
      have hlast : (t :: t' :: ts').getLast hne =
          (t' :: ts').getLast (by simp) := List.getLast_cons _
      rw [hlast]
      refine le_trans ?_ hboundF
      have hD : 0 ≤ ((t' :: ts').getLast (by simp) - r0) * st.refill_rate :=
        mul_nonneg (sub_nonneg.mpr (hts' _ (List.getLast_mem _))) hR
      rcases le_total (tok0 + (t - r0) * st.refill_rate) st.max_tokens with
        hcase | hcase
      · have hmono : tok0 ≤
            min st.max_tokens (tok0 + (t - r0) * st.refill_rate) := by
          rw [min_eq_right hcase]; linarith
        exact min_le_min le_rfl (by linarith)
      · have hrC : min st.max_tokens (tok0 + (t - r0) * st.refill_rate) =
            st.max_tokens := min_eq_left hcase
        calc min st.max_tokens
              (tok0 + ((t' :: ts').getLast (by simp) - r0) * st.refill_rate)
            ≤ st.max_tokens := min_le_left _ _
          _ = min st.max_tokens
                (min st.max_tokens (tok0 + (t - r0) * st.refill_rate) +
                  ((t' :: ts').getLast (by simp) - r0) * st.refill_rate) :=
              (min_eq_left (by rw [hrC]; linarith)).symm

/-- C1 (amended): on each call, the bucket's tokens become
`min(C, tokens + elapsed * R)`; if that value is `>= 1` the call is
permitted, consumes one token, and sets `last_refill := now`; otherwise the
call is denied with `remaining` equal to the refilled value, the refilled
value is stored back, and `last_refill` is unchanged.  Consequently, across
any sequence of denied calls `last_refill` stays at its value from the last
permitted call and the accrued tokens are **at least** (not exactly)
`min(C, tokens + (now - last_refill) * R)` — each denied call re-counts the
full interval since `last_refill`, so the accrual can strictly exceed that
value. -/
theorem rate_limit_call_behavior (st : RateLimiterState) (ip : String)
    (now tok0 r0 : ℚ) (hb : st.buckets ip = some ⟨tok0, r0⟩)
    (hR : 0 ≤ st.refill_rate) (ts : List ℚ) (hne : ts ≠ [])
    (hts : ∀ t ∈ ts, r0 ≤ t)
    (hden : ∀ p ∈ (runCalls st ip ts).2, p.1 = false) :
    (1 ≤ min st.max_tokens (tok0 + (now - r0) * st.refill_rate) →
      check_rate_limit st ip now =
        allowedResult st ip now
          (min st.max_tokens (tok0 + (now - r0) * st.refill_rate))) ∧
    (min st.max_tokens (tok0 + (now - r0) * st.refill_rate) < 1 →
      check_rate_limit st ip now =
        deniedResult st ip r0
          (min st.max_tokens (tok0 + (now - r0) * st.refill_rate))) ∧
    (∃ tokF, ((runCalls st ip ts).1).buckets ip = some ⟨tokF, r0⟩ ∧
      min st.max_tokens (tok0 + (ts.getLast hne - r0) * st.refill_rate)
        ≤ tokF) :=
  ⟨fun hge => check_rate_limit_allowed_eq st ip now tok0 r0 hb hge,
    fun hlt => check_rate_limit_denied_eq st ip now tok0 r0 hb hlt,
    denied_run_accrual ip ts st tok0 r0 hb hR hts hden hne⟩

/-- C1 counterexample: capacity 60, refill 1 token/s, identity `ipA`
exhausted at time 0 (`last_refill = 0`).  A denied call at `t = 1/2` stores
the refilled half token without advancing `last_refill`; the next call at
`t = 3/4` refills to `1/2 + 3/4 = 5/4 >= 1` and is PERMITTED — although the
elapsed time since the last permitted call accounts for only
`min(60, 0 + 3/4 * 1) = 3/4 < 1` token, under which the claim's "exactly"
accounting would deny it. -/
theorem rate_limit_denied_call_over_accrues :
    (check_rate_limit rlExhausted ipA (1 / 2)).allowed = false ∧
    (check_rate_limit (check_rate_limit rlExhausted ipA (1 / 2)).state ipA
        (3 / 4)).allowed = true ∧
    min rlExhausted.max_tokens
        (0 + ((3 : ℚ) / 4 - 0) * rlExhausted.refill_rate) < 1 := by
  have hbA : rlExhausted.buckets ipA = some ⟨0, 0⟩ := rfl
  have m1 : min rlExhausted.max_tokens
      ((0 : ℚ) + ((1 : ℚ) / 2 - 0) * rlExhausted.refill_rate) = 1 / 2 := by
    show min (60 : ℚ) ((0 : ℚ) + ((1 : ℚ) / 2 - 0) * 1) = 1 / 2
    rw [show (0 : ℚ) + ((1 : ℚ) / 2 - 0) * 1 = 1 / 2 by norm_num]
    exact min_eq_right (by norm_num)
  have hd := check_rate_limit_denied_eq rlExhausted ipA (1 / 2) 0 0 hbA
    (by rw [m1]; norm_num)
  refine ⟨by rw [hd]; rfl, ?_, ?_⟩
  · have e1 : (check_rate_limit rlExhausted ipA (1 / 2)).state.buckets ipA =
        some ⟨1 / 2, 0⟩ := by
      rw [hd]
      simp only [deniedResult, updMap, m1]
      simp
    have emax : (check_rate_limit rlExhausted ipA (1 / 2)).state.max_tokens =
        60 := by rw [hd]; rfl
    have erate : (check_rate_limit rlExhausted ipA
        (1 / 2)).state.refill_rate = 1 := by rw [hd]; rfl
    have m2 : min (check_rate_limit rlExhausted ipA (1 / 2)).state.max_tokens
        ((1 : ℚ) / 2 + ((3 : ℚ) / 4 - 0) *
          (check_rate_limit rlExhausted ipA (1 / 2)).state.refill_rate) =
        5 / 4 := by
      rw [emax, erate]
      rw [show (1 : ℚ) / 2 + ((3 : ℚ) / 4 - 0) * 1 = 5 / 4 by norm_num]
      exact min_eq_right (by norm_num)
    have ha := check_rate_limit_allowed_eq
      (check_rate_limit rlExhausted ipA (1 / 2)).state ipA (3 / 4) (1 / 2) 0
      e1 (by rw [m2]; norm_num)
    rw [ha]
    rfl
  · show min (60 : ℚ) ((0 : ℚ) + ((3 : ℚ) / 4 - 0) * 1) < 1
    rw [show (0 : ℚ) + ((3 : ℚ) / 4 - 0) * 1 = 3 / 4 by norm_num]
    rw [min_eq_right (by norm_num : (3 : ℚ) / 4 ≤ 60)]
    norm_num

/-- Witness for C1 (amended): a single denied call at `t = 1/2` on the
exhausted bucket, with the per-call characterization taken at `now = 1`. -/
theorem rate_limit_call_behavior_witness :
    rlExhausted.buckets ipA = some ⟨0, 0⟩ ∧
    (0 : ℚ) ≤ rlExhausted.refill_rate ∧
    ([(1 : ℚ) / 2] : List ℚ) ≠ [] ∧
    (∀ t ∈ ([(1 : ℚ) / 2] : List ℚ), (0 : ℚ) ≤ t) ∧
    (∀ p ∈ (runCalls rlExhausted ipA [(1 : ℚ) / 2]).2, p.1 = false) ∧
    ((1 ≤ min rlExhausted.max_tokens
        ((0 : ℚ) + ((1 : ℚ) - 0) * rlExhausted.refill_rate) →
      check_rate_limit rlExhausted ipA 1 =
        allowedResult rlExhausted ipA 1
          (min rlExhausted.max_tokens
            ((0 : ℚ) + ((1 : ℚ) - 0) * rlExhausted.refill_rate))) ∧
    (min rlExhausted.max_tokens
        ((0 : ℚ) + ((1 : ℚ) - 0) * rlExhausted.refill_rate) < 1 →
      check_rate_limit rlExhausted ipA 1 =
        deniedResult rlExhausted ipA 0
          (min rlExhausted.max_tokens
            ((0 : ℚ) + ((1 : ℚ) - 0) * rlExhausted.refill_rate))) ∧
    (∃ tokF,
      ((runCalls rlExhausted ipA [(1 : ℚ) / 2]).1).buckets ipA =
        some ⟨tokF, 0⟩ ∧
      min rlExhausted.max_tokens
          ((0 : ℚ) + (([(1 : ℚ) / 2] : List ℚ).getLast (by simp) - 0) *
            rlExhausted.refill_rate) ≤ tokF)) := by
  have hbA : rlExhausted.buckets ipA = some ⟨0, 0⟩ := rfl
  have m1 : min rlExhausted.max_tokens
      ((0 : ℚ) + ((1 : ℚ) / 2 - 0) * rlExhausted.refill_rate) = 1 / 2 := by
    show min (60 : ℚ) ((0 : ℚ) + ((1 : ℚ) / 2 - 0) * 1) = 1 / 2
    rw [show (0 : ℚ) + ((1 : ℚ) / 2 - 0) * 1 = 1 / 2 by norm_num]
    exact min_eq_right (by norm_num)
  have hd := check_rate_limit_denied_eq rlExhausted ipA (1 / 2) 0 0 hbA
    (by rw [m1]; norm_num)
  have hsnd1 : (runCalls rlExhausted ipA [(1 : ℚ) / 2]).2 =
      [((check_rate_limit rlExhausted ipA (1 / 2)).allowed,
        (check_rate_limit rlExhausted ipA (1 / 2)).remaining)] := by
    simp [runCalls]
  have hden1 : ∀ p ∈ (runCalls rlExhausted ipA [(1 : ℚ) / 2]).2,
      p.1 = false := by
    intro p hp
    rw [hsnd1, List.mem_singleton] at hp
    subst hp
    rw [hd]
    rfl
  exact ⟨hbA, by norm_num [rlExhausted], by simp, by norm_num, hden1,
    rate_limit_call_behavior rlExhausted ipA 1 0 0 hbA
      (by norm_num [rlExhausted]) [(1 : ℚ) / 2] (by simp)
      (by norm_num) hden1⟩
/-! ## Session id generation theorems -/

lemma lowerHex_sessionIdChar {c : Char} (h : isLowerHexDigit c = true) :
    sessionIdChar c = true := by
  simp only [isLowerHexDigit, Bool.or_eq_true, Bool.and_eq_true,
    decide_eq_true_eq] at h
  rcases h with ⟨h1, h2⟩ | ⟨h1, h2⟩
  · have hdig : c.isDigit = true := by
      simp only [Char.isDigit, Bool.and_eq_true, decide_eq_true_eq]
      exact ⟨h1, h2⟩
    simp [sessionIdChar, hdig]
  · have hlow : c.isLower = true := by
      simp only [Char.isLower, Bool.and_eq_true, decide_eq_true_eq]
      exact ⟨h1, le_trans h2 (show ('f' : Char) ≤ 'z' by decide)⟩
    simp [sessionIdChar, Char.isAlpha, hlow]

/-- C10: for any 32-character lowercase-hex `uuid.uuid4().hex` value, the
generated id is `"session_"` followed by exactly 16 lowercase hex
characters, 24 characters in total, and passes
`InputValidator.validate_session_id` (the `^[a-zA-Z0-9_-]+$` pattern and
the 64-character limit). -/
theorem generate_session_id_wellformed (hex : List Char)
    (hlen : hex.length = 32) (hhex : ∀ c ∈ hex, isLowerHexDigit c = true) :
    (generate_session_id hex).length = 24 ∧
    (generate_session_id hex).take 8 = "session_".data ∧
    ((generate_session_id hex).drop 8).length = 16 ∧
    (∀ c ∈ (generate_session_id hex).drop 8, isLowerHexDigit c = true) ∧
    (validate_session_id (generate_session_id hex)).1 = true := by
  have hdlen : ("session_".data).length = 8 := rfl
  have hlen24 : (generate_session_id hex).length = 24 := by
    unfold generate_session_id
    rw [List.length_append, hdlen, List.length_take, hlen]
    omega
  have htake : (generate_session_id hex).take 8 = "session_".data := by
    unfold generate_session_id
    rw [show (8 : ℕ) = ("session_".data).length from rfl]
    exact List.take_left _ _
  have hdrop : (generate_session_id hex).drop 8 = hex.take 16 := by
    unfold generate_session_id
    rw [show (8 : ℕ) = ("session_".data).length from hdlen.symm]
    exact List.drop_left _ _
  have hdropchars : ∀ c ∈ hex.take 16, isLowerHexDigit c = true :=
    fun c hc => hhex c (List.take_subset _ _ hc)
  have hne : generate_session_id hex ≠ [] := by
    intro hcontra
    rw [hcontra] at hlen24
    simp at hlen24
  have hall : (generate_session_id hex).all sessionIdChar = true := by
    rw [List.all_eq_true]
    intro c hc
    have hsess : ∀ x ∈ "session_".data, sessionIdChar x = true := by decide
    rcases List.mem_append.mp hc with h | h
    · exact hsess c h
    · exact lowerHex_sessionIdChar (hhex c (List.take_subset _ _ h))
  refine ⟨hlen24, htake, ?_, ?_, ?_⟩
  · rw [hdrop, List.length_take, hlen]
    omega
  · rw [hdrop]; exact hdropchars
  · simp [validate_session_id, List.isEmpty_iff, hne, hlen24, hall]

/-- Witness for C10 at a concrete 32-character hex string. -/
theorem generate_session_id_wellformed_witness :
    hex32.length = 32 ∧ (∀ c ∈ hex32, isLowerHexDigit c = true) ∧
    ((generate_session_id hex32).length = 24 ∧
      (generate_session_id hex32).take 8 = "session_".data ∧
      ((generate_session_id hex32).drop 8).length = 16 ∧
      (∀ c ∈ (generate_session_id hex32).drop 8,
        isLowerHexDigit c = true) ∧
      (validate_session_id (generate_session_id hex32)).1 = true) :=
  ⟨rfl, by decide, generate_session_id_wellformed hex32 rfl (by decide)⟩

end Sounet
